import Mathlib

/-!
Shallow embedding of `contracts/Votingsystem.sol` (contract `VotingSystem`).

Identities (Solidity `address`) are modelled as `Nat`.  Solidity mappings are
total functions returning the zero-initialised struct for absent keys, exactly
as the EVM does.  Each external function becomes a Lean function; functions
that can revert return `Except VError VSState` (or a value), and the revert
reasons become the constructors of `VError`.  `block.timestamp` is passed as an
explicit argument.  Transactions on the EVM are serialized and atomic, so a
"concurrent" batch of calls is modelled as a sequence of calls.
-/

/-- Mirrors the Solidity struct `Candidate` (`id`, `name`, `description`,
`voteCount`, `exists`). The Solidity field `exists` is spelled `exists_`. -/
structure Candidate where
  id : Nat
  name : String
  description : String
  voteCount : Nat
  exists_ : Bool
deriving DecidableEq

/-- Mirrors the Solidity struct `Voter` (`hasVoted`, `votedFor`, `timestamp`). -/
structure Voter where
  hasVoted : Bool
  votedFor : Nat
  timestamp : Nat
deriving DecidableEq

/-- The zero-initialised `Candidate`, what a Solidity mapping returns for an
absent key. -/
def zeroCandidate : Candidate := ⟨0, "", "", 0, false⟩

/-- The zero-initialised `Voter`, what a Solidity mapping returns for an
absent key. -/
def zeroVoter : Voter := ⟨false, 0, 0⟩

/-- Revert reasons of `VotingSystem`.  `unauthorized` is OpenZeppelin's
`OwnableUnauthorizedAccount` (the spec's `Unauthorized`); `votingInactive` is
the revert string "Voting is not active"; `alreadyVoted` is "You have already
voted"; `unknownCandidate` is "Candidate does not exist" (raised by the
`validCandidate` modifier, used both by `vote` and by the read
`getCandidate`, where the spec calls it `NotFound`). -/
inductive VError where
  | unauthorized
  | votingInactive
  | alreadyVoted
  | unknownCandidate
deriving DecidableEq

/-- Contract storage of `VotingSystem`: the two mappings, the counters
`candidateCount` and `totalVotes`, the flag `votingActive`, and the `Ownable`
owner (the designated administrator, fixed at construction). -/
structure VSState where
  candidates : Nat → Candidate
  voters : Nat → Voter
  candidateCount : Nat
  totalVotes : Nat
  votingActive : Bool
  owner : Nat

/-- The constructor: `votingActive = false`, `candidateCount = 0`,
`totalVotes = 0`, owner set to the deployer, both mappings empty. -/
def initState (deployer : Nat) : VSState :=
  { candidates := fun _ => zeroCandidate
    voters := fun _ => zeroVoter
    candidateCount := 0
    totalVotes := 0
    votingActive := false
    owner := deployer }

/-- `addCandidate(string _name, string _description)` with the `onlyOwner`
modifier: increments `candidateCount` and stores the new candidate at the new
count with `voteCount = 0` and `exists = true`.  There is no validation of
`_name` or `_description` in the source. -/
def addCandidate (s : VSState) (caller : Nat) (name description : String) :
    Except VError VSState :=
  if caller ≠ s.owner then .error .unauthorized
  else
    .ok { s with
      candidateCount := s.candidateCount + 1
      candidates := fun i =>
        if i = s.candidateCount + 1 then
          ⟨s.candidateCount + 1, name, description, 0, true⟩
        else s.candidates i }

/-- `vote(uint256 _candidateId)`: the modifiers run in source order —
`onlyDuringVoting`, then `hasNotVoted`, then `validCandidate` (the
`nonReentrant` guard has no effect in this sequential model).  On success it
writes the caller's `Voter` record, increments the candidate's `voteCount`
and `totalVotes`. -/
def vote (s : VSState) (caller cid ts : Nat) : Except VError VSState :=
  if s.votingActive = false then .error .votingInactive
  else if (s.voters caller).hasVoted = true then .error .alreadyVoted
  else if (s.candidates cid).exists_ = false then .error .unknownCandidate
  else
    .ok { s with
      voters := fun a => if a = caller then ⟨true, cid, ts⟩ else s.voters a
      candidates := fun i =>
        if i = cid then
          { s.candidates i with voteCount := (s.candidates i).voteCount + 1 }
        else s.candidates i
      totalVotes := s.totalVotes + 1 }

/-- `toggleVoting()` with `onlyOwner`: flips `votingActive`. -/
def toggleVoting (s : VSState) (caller : Nat) : Except VError VSState :=
  if caller ≠ s.owner then .error .unauthorized
  else .ok { s with votingActive := !s.votingActive }

/-- `getCandidate(uint256 _candidateId)` (a `view` function, hence a pure
read): guarded by `validCandidate`, returns the name, description and
vote count. -/
def getCandidate (s : VSState) (cid : Nat) :
    Except VError (String × String × Nat) :=
  if (s.candidates cid).exists_ = false then .error .unknownCandidate
  else .ok ((s.candidates cid).name, (s.candidates cid).description,
            (s.candidates cid).voteCount)

/-- `getAllCandidates()` (a `view` function): the candidates stored at keys
`1 .. candidateCount`, in ascending key order. -/
def getAllCandidates (s : VSState) : List Candidate :=
  (List.range s.candidateCount).map (fun i => s.candidates (i + 1))

/-- `getResults()` (a `view` function): the vote counts of candidates
`1 .. candidateCount`, in ascending id order. -/
def getResults (s : VSState) : List Nat :=
  (List.range s.candidateCount).map (fun i => (s.candidates (i + 1)).voteCount)

/-- `hasVoted(address _voter)` (a `view` function): reads the mapping, so an
identity with no record yields the zero struct and the result is `false`
rather than an error. -/
def hasVoted (s : VSState) (a : Nat) : Bool :=
  (s.voters a).hasVoted

/-- The phase read: the public getter of `votingActive` (the spec's
`getPhase`). -/
def getPhase (s : VSState) : Bool :=
  s.votingActive

/-- `getVotingStats()` (a `view` function). -/
def getVotingStats (s : VSState) : Nat × Nat × Bool :=
  (s.candidateCount, s.totalVotes, s.votingActive)

/-- One external transaction against the contract. -/
inductive Op where
  | addCandidate (caller : Nat) (name description : String)
  | toggleVoting (caller : Nat)
  | vote (caller cid ts : Nat)

/-- Apply a transaction: a reverted call (an `error` result) leaves storage
exactly as it was, as the EVM rolls back reverted transactions. -/
def applyOp (s : VSState) : Op → VSState
  | .addCandidate c n d =>
    match addCandidate s c n d with
    | .ok s' => s'
    | .error _ => s
  | .toggleVoting c =>
    match toggleVoting s c with
    | .ok s' => s'
    | .error _ => s
  | .vote c cid ts =>
    match vote s c cid ts with
    | .ok s' => s'
    | .error _ => s

/-- Run a sequence of transactions. -/
def run (s : VSState) (ops : List Op) : VSState :=
  ops.foldl applyOp s

/-- Sum of the stored vote counts of candidates `1 .. candidateCount`. -/
def tallySum (s : VSState) : Nat :=
  ∑ i ∈ Finset.range s.candidateCount, (s.candidates (i + 1)).voteCount

/-! ### Characterizations of each operation -/

/-- A successful `addCandidate` call: the caller was the owner and the result
state is the source's update. -/
lemma addCandidate_ok_eq {s : VSState} {c : Nat} {n d : String} {s' : VSState}
    (h : addCandidate s c n d = Except.ok s') :
    c = s.owner ∧
    s' = { s with
      candidateCount := s.candidateCount + 1
      candidates := fun i =>
        if i = s.candidateCount + 1 then
          ⟨s.candidateCount + 1, n, d, 0, true⟩
        else s.candidates i } := by
  unfold addCandidate at h
  rcases Decidable.em (c = s.owner) with h1 | h1
  · rw [if_neg (not_not_intro h1)] at h
    injection h with h
    exact ⟨h1, h.symm⟩
  · rw [if_pos h1] at h
    exact Except.noConfusion h

/-- A non-owner `addCandidate` call reverts with `unauthorized`. -/
lemma addCandidate_error {s : VSState} {c : Nat} (n d : String)
    (h : c ≠ s.owner) :
    addCandidate s c n d = Except.error VError.unauthorized := by
  simp [addCandidate, h]

/-- A successful `toggleVoting` call: the caller was the owner and only the
flag flips. -/
lemma toggleVoting_ok_eq {s : VSState} {c : Nat} {s' : VSState}
    (h : toggleVoting s c = Except.ok s') :
    c = s.owner ∧ s' = { s with votingActive := !s.votingActive } := by
  unfold toggleVoting at h
  rcases Decidable.em (c = s.owner) with h1 | h1
  · rw [if_neg (not_not_intro h1)] at h
    injection h with h
    exact ⟨h1, h.symm⟩
  · rw [if_pos h1] at h
    exact Except.noConfusion h

/-- A non-owner `toggleVoting` call reverts with `unauthorized`. -/
lemma toggleVoting_error {s : VSState} {c : Nat} (h : c ≠ s.owner) :
    toggleVoting s c = Except.error VError.unauthorized := by
  simp [toggleVoting, h]

/-- A successful `vote` call: all three guards passed and the result state is
the source's update. -/
lemma vote_ok_eq {s : VSState} {caller cid ts : Nat} {s' : VSState}
    (h : vote s caller cid ts = Except.ok s') :
    s.votingActive = true ∧
    (s.voters caller).hasVoted = false ∧
    (s.candidates cid).exists_ = true ∧
    s' = { s with
      voters := fun a => if a = caller then ⟨true, cid, ts⟩ else s.voters a
      candidates := fun i =>
        if i = cid then
          { s.candidates i with voteCount := (s.candidates i).voteCount + 1 }
        else s.candidates i
      totalVotes := s.totalVotes + 1 } := by
  unfold vote at h
  by_cases h1 : s.votingActive = false
  · rw [if_pos h1] at h; exact Except.noConfusion h
  · rw [if_neg h1] at h
    by_cases h2 : (s.voters caller).hasVoted = true
    · rw [if_pos h2] at h; exact Except.noConfusion h
    · rw [if_neg h2] at h
      by_cases h3 : (s.candidates cid).exists_ = false
      · rw [if_pos h3] at h; exact Except.noConfusion h
      · rw [if_neg h3] at h
        injection h with h
        exact ⟨by simpa using h1, by simpa using h2, by simpa using h3, h.symm⟩

/-- `vote` with the phase inactive reverts with `votingInactive`. -/
lemma vote_inactive {s : VSState} (caller cid ts : Nat)
    (h : s.votingActive = false) :
    vote s caller cid ts = Except.error VError.votingInactive := by
  simp [vote, h]

/-- `vote` with the phase active by a caller who already voted reverts with
`alreadyVoted`. -/
lemma vote_already {s : VSState} (caller cid ts : Nat)
    (hact : s.votingActive = true)
    (hv : (s.voters caller).hasVoted = true) :
    vote s caller cid ts = Except.error VError.alreadyVoted := by
  simp [vote, hact, hv]

/-- `vote` with the phase active, a fresh caller and an unknown candidate
reverts with `unknownCandidate`. -/
lemma vote_unknown {s : VSState} (caller cid ts : Nat)
    (hact : s.votingActive = true)
    (hv : (s.voters caller).hasVoted = false)
    (hex : (s.candidates cid).exists_ = false) :
    vote s caller cid ts = Except.error VError.unknownCandidate := by
  simp [vote, hact, hv, hex]

/-- `vote` with all three guards passing succeeds. -/
lemma vote_ok {s : VSState} (caller cid ts : Nat)
    (hact : s.votingActive = true)
    (hv : (s.voters caller).hasVoted = false)
    (hex : (s.candidates cid).exists_ = true) :
    vote s caller cid ts = Except.ok { s with
      voters := fun a => if a = caller then ⟨true, cid, ts⟩ else s.voters a
      candidates := fun i =>
        if i = cid then
          { s.candidates i with voteCount := (s.candidates i).voteCount + 1 }
        else s.candidates i
      totalVotes := s.totalVotes + 1 } := by
  simp [vote, hact, hv, hex]

/-! ### Unfolding equations for `applyOp` -/

lemma applyOp_add (s : VSState) (c : Nat) (n d : String) :
    applyOp s (.addCandidate c n d) =
      match addCandidate s c n d with
      | .ok s' => s'
      | .error _ => s := rfl

lemma applyOp_toggle (s : VSState) (c : Nat) :
    applyOp s (.toggleVoting c) =
      match toggleVoting s c with
      | .ok s' => s'
      | .error _ => s := rfl

lemma applyOp_vote (s : VSState) (c cid ts : Nat) :
    applyOp s (.vote c cid ts) =
      match vote s c cid ts with
      | .ok s' => s'
      | .error _ => s := rfl

/-! ### Persistence of a written voter record -/

/-- Once an identity's record shows `hasVoted`, no transaction ever changes
that record again. -/
lemma applyOp_voters_voted {s : VSState} {a : Nat}
    (hv : (s.voters a).hasVoted = true) (op : Op) :
    (applyOp s op).voters a = s.voters a := by
  cases op with
  | addCandidate c n d =>
    rw [applyOp_add]
    cases hA : addCandidate s c n d with
    | ok s' => obtain ⟨-, rfl⟩ := addCandidate_ok_eq hA; rfl
    | error e => rfl
  | toggleVoting c =>
    rw [applyOp_toggle]
    cases hA : toggleVoting s c with
    | ok s' => obtain ⟨-, rfl⟩ := toggleVoting_ok_eq hA; rfl
    | error e => rfl
  | vote c cid ts =>
    rw [applyOp_vote]
    cases hA : vote s c cid ts with
    | ok s' =>
      obtain ⟨-, hfresh, -, rfl⟩ := vote_ok_eq hA
      have hne : a ≠ c := fun hEq => by rw [hEq] at hv; rw [hv] at hfresh; cases hfresh
      simp [hne]
    | error e => rfl

/-- Once an identity's record shows `hasVoted`, it is unchanged by any
sequence of transactions. -/
lemma run_voters_voted {a : Nat} (ops : List Op) :
    ∀ s : VSState, (s.voters a).hasVoted = true →
      (run s ops).voters a = s.voters a := by
  induction ops with
  | nil => intro s _; rfl
  | cons op rest ih =>
    intro s hv
    have h1 := applyOp_voters_voted hv op
    have h2 : ((applyOp s op).voters a).hasVoted = true := by rw [h1]; exact hv
    calc (run (applyOp s op) rest).voters a = (applyOp s op).voters a := ih _ h2
      _ = s.voters a := h1

/-- The owner is fixed: no transaction changes it. -/
lemma applyOp_owner (s : VSState) (op : Op) : (applyOp s op).owner = s.owner := by
  cases op with
  | addCandidate c n d =>
    rw [applyOp_add]
    cases hA : addCandidate s c n d with
    | ok s' => obtain ⟨-, rfl⟩ := addCandidate_ok_eq hA; rfl
    | error e => rfl
  | toggleVoting c =>
    rw [applyOp_toggle]
    cases hA : toggleVoting s c with
    | ok s' => obtain ⟨-, rfl⟩ := toggleVoting_ok_eq hA; rfl
    | error e => rfl
  | vote c cid ts =>
    rw [applyOp_vote]
    cases hA : vote s c cid ts with
    | ok s' => obtain ⟨-, -, -, rfl⟩ := vote_ok_eq hA; rfl
    | error e => rfl

/-! ### The reachable-state invariant: dense ids and tally consistency -/

/-- The keys holding an existing candidate are exactly `1 .. candidateCount`. -/
def denseIds (s : VSState) : Prop :=
  ∀ i, (s.candidates i).exists_ = true ↔ (1 ≤ i ∧ i ≤ s.candidateCount)

/-- The conjunction of the two storage invariants. -/
def StateInv (s : VSState) : Prop :=
  denseIds s ∧ tallySum s = s.totalVotes

lemma inv_init (d : Nat) : StateInv (initState d) := by
  constructor
  · intro i
    simp only [initState, zeroCandidate]
    constructor
    · intro h; cases h
    · intro h; omega
  · simp [tallySum, initState]

lemma sum_indicator_range {n c : Nat} (h1 : 1 ≤ c) (h2 : c ≤ n) :
    (∑ i ∈ Finset.range n, if i + 1 = c then (1 : Nat) else 0) = 1 := by
  have hstep :
      (∑ i ∈ Finset.range n, if i + 1 = c then (1 : Nat) else 0) =
        ∑ i ∈ Finset.range n, if i = c - 1 then (1 : Nat) else 0 :=
    Finset.sum_congr rfl (fun i _ => if_congr (by omega) rfl rfl)
  rw [hstep, Finset.sum_ite_eq' (Finset.range n) (c - 1) (fun _ => (1 : Nat))]
  rw [if_pos (Finset.mem_range.mpr (by omega))]

lemma inv_applyOp {s : VSState} (h : StateInv s) (op : Op) : StateInv (applyOp s op) := by
  obtain ⟨hd, ht⟩ := h
  cases op with
  | addCandidate c n d =>
    rw [applyOp_add]
    cases hA : addCandidate s c n d with
    | ok s' =>
      obtain ⟨-, rfl⟩ := addCandidate_ok_eq hA
      constructor
      · intro i
        by_cases hi : i = s.candidateCount + 1
        · subst hi; simp
        · simpa [hi] using (hd i).trans (by omega)
      · show tallySum _ = s.totalVotes
        unfold tallySum
        simp only
        rw [Finset.sum_range_succ]
        have hrest :
            (∑ i ∈ Finset.range s.candidateCount,
              (if i + 1 = s.candidateCount + 1 then
                  (⟨s.candidateCount + 1, n, d, 0, true⟩ : Candidate)
                else s.candidates (i + 1)).voteCount) =
              ∑ i ∈ Finset.range s.candidateCount,
                (s.candidates (i + 1)).voteCount := by
          refine Finset.sum_congr rfl (fun i hi => ?_)
          have : i + 1 ≠ s.candidateCount + 1 := by
            have := Finset.mem_range.mp hi; omega
          rw [if_neg this]
        rw [hrest]
        simpa using ht
    | error e => exact ⟨hd, ht⟩
  | toggleVoting c =>
    rw [applyOp_toggle]
    cases hA : toggleVoting s c with
    | ok s' =>
      obtain ⟨-, rfl⟩ := toggleVoting_ok_eq hA
      exact ⟨hd, ht⟩
    | error e => exact ⟨hd, ht⟩
  | vote c cid ts =>
    rw [applyOp_vote]
    cases hA : vote s c cid ts with
    | ok s' =>
      obtain ⟨-, -, hex, rfl⟩ := vote_ok_eq hA
      have hcid : 1 ≤ cid ∧ cid ≤ s.candidateCount := (hd cid).mp hex
      constructor
      · intro i
        by_cases hi : i = cid
        · subst hi; simpa using hd i
        · simpa [hi] using hd i
      · show tallySum _ = s.totalVotes + 1
        unfold tallySum
        simp only
        have hsplit :
            (∑ i ∈ Finset.range s.candidateCount,
              (if i + 1 = cid then
                  { s.candidates (i + 1) with
                      voteCount := (s.candidates (i + 1)).voteCount + 1 }
                else s.candidates (i + 1)).voteCount) =
              ∑ i ∈ Finset.range s.candidateCount,
                ((s.candidates (i + 1)).voteCount +
                  if i + 1 = cid then 1 else 0) := by
          refine Finset.sum_congr rfl (fun i _ => ?_)
          by_cases hi : i + 1 = cid <;> simp [hi]
        unfold tallySum at ht
        rw [hsplit, Finset.sum_add_distrib,
          sum_indicator_range hcid.1 hcid.2, ht]
    | error e => exact ⟨hd, ht⟩

lemma inv_run (ops : List Op) :
    ∀ s : VSState, StateInv s → StateInv (run s ops) := by
  induction ops with
  | nil => intro s h; exact h
  | cons op rest ih => intro s h; exact ih _ (inv_applyOp h op)

/-! ### Serialized batches of vote calls by one identity

The EVM executes transactions one at a time, so a batch of "concurrent" vote
calls is any serialization of them.  `runVotes` executes a batch of
`(candidateId, timestamp)` calls by a fixed caller, recording `none` for a
successful call and `some e` for a reverted one. -/

def runVotes (caller : Nat) : VSState → List (Nat × Nat) →
    VSState × List (Option VError)
  | s, [] => (s, [])
  | s, (cid, ts) :: rest =>
    match vote s caller cid ts with
    | .ok s' =>
      let r := runVotes caller s' rest
      (r.1, none :: r.2)
    | .error e =>
      let r := runVotes caller s rest
      (r.1, some e :: r.2)

lemma runVotes_cons_ok {s s' : VSState} {caller cid ts : Nat}
    {rest : List (Nat × Nat)} (h : vote s caller cid ts = Except.ok s') :
    runVotes caller s ((cid, ts) :: rest) =
      ((runVotes caller s' rest).1, none :: (runVotes caller s' rest).2) := by
  simp only [runVotes]
  rw [h]

lemma runVotes_already (caller : Nat) (calls : List (Nat × Nat)) :
    ∀ s : VSState, s.votingActive = true →
      (s.voters caller).hasVoted = true →
      runVotes caller s calls =
        (s, calls.map fun _ => some VError.alreadyVoted) := by
  induction calls with
  | nil => intro s _ _; rfl
  | cons p rest ih =>
    intro s hact hv
    obtain ⟨cid, ts⟩ := p
    simp only [runVotes]
    rw [vote_already caller cid ts hact hv]
    simp only [List.map_cons]
    rw [ih s hact hv]

/-! ### Concrete states used by witnesses -/

/-- After deployment by identity 0 and an `addCandidate` for "Alice":
candidate 1 exists, phase still inactive. -/
def sCand : VSState := applyOp (initState 0) (Op.addCandidate 0 "Alice" "d1")

/-- `sCand` after the owner toggles the phase on. -/
def sActive : VSState := applyOp sCand (Op.toggleVoting 0)

/-- `sActive` after identity 1 votes for candidate 1 at time 10. -/
def sVoted : VSState := applyOp sActive (Op.vote 1 1 10)

/-- The transactions of spec Scenario C: three candidates, activation, and
five distinct voters choosing candidates 1, 1, 2, 3, 1. -/
def electionOps : List Op :=
  [Op.addCandidate 0 "Alice" "a", Op.addCandidate 0 "Bob" "b",
   Op.addCandidate 0 "Carol" "c", Op.toggleVoting 0,
   Op.vote 1 1 10, Op.vote 2 1 11, Op.vote 3 2 12, Op.vote 4 3 13,
   Op.vote 5 1 14]

/-! ### The claims -/

/-- C2: In every state reachable from the initial state by any sequence of
`addCandidate`, `toggleVoting` and `vote` transactions (successful or
reverted), the existing candidates occupy exactly the keys
`1 .. candidateCount` and the sum of their `voteCount`s equals
`totalVotes`. -/
theorem tally_consistency (d : Nat) (ops : List Op) :
    (∀ i, ((run (initState d) ops).candidates i).exists_ = true ↔
      (1 ≤ i ∧ i ≤ (run (initState d) ops).candidateCount)) ∧
    tallySum (run (initState d) ops) = (run (initState d) ops).totalVotes :=
  inv_run ops (initState d) (inv_init d)

/-- C3: In every reachable state the existing candidate ids are exactly
`1 .. candidateCount` (no gaps, no duplicates), and every successful
`addCandidate` call allocates the next sequential id
`candidateCount + 1`, storing the new candidate there with `voteCount = 0`
and leaving every other key unchanged. -/
theorem dense_sequential_ids (d : Nat) (ops : List Op) :
    (∀ i, ((run (initState d) ops).candidates i).exists_ = true ↔
      (1 ≤ i ∧ i ≤ (run (initState d) ops).candidateCount)) ∧
    (∀ (s s' : VSState) (c : Nat) (nm de : String),
      addCandidate s c nm de = Except.ok s' →
        s'.candidateCount = s.candidateCount + 1 ∧
        s'.candidates (s.candidateCount + 1) =
          ⟨s.candidateCount + 1, nm, de, 0, true⟩ ∧
        (∀ j, j ≠ s.candidateCount + 1 → s'.candidates j = s.candidates j)) := by
  constructor
  · exact (inv_run ops (initState d) (inv_init d)).1
  · intro s s' c nm de h
    obtain ⟨-, rfl⟩ := addCandidate_ok_eq h
    exact ⟨rfl, by simp, fun j hj => by simp [hj]⟩

/-- Witness for C3 at a concrete successful call: adding "Alice" to the fresh
deployment bumps the count from 0 to 1 and stores her at key 1 with zero
votes. -/
theorem dense_sequential_ids_witness :
    sCand.candidateCount = (initState 0).candidateCount + 1 ∧
    sCand.candidates ((initState 0).candidateCount + 1) =
      ⟨(initState 0).candidateCount + 1, "Alice", "d1", 0, true⟩ :=
  ⟨((dense_sequential_ids 0 []).2 (initState 0) sCand 0 "Alice" "d1"
      (by rfl)).1,
   ((dense_sequential_ids 0 []).2 (initState 0) sCand 0 "Alice" "d1"
      (by rfl)).2.1⟩

/-- C4: `vote` evaluates its guards in the fixed source order
phase → duplicate → existence: an inactive phase reverts `votingInactive`
whatever else holds; with the phase active a repeat voter gets
`alreadyVoted` even for an unknown candidate; with the phase active and a
fresh voter an unknown candidate gets `unknownCandidate`; and with all three
guards passing the call succeeds. -/
theorem vote_check_order (s : VSState) (caller cid ts : Nat) :
    (s.votingActive = false →
      vote s caller cid ts = Except.error VError.votingInactive) ∧
    (s.votingActive = true → (s.voters caller).hasVoted = true →
      vote s caller cid ts = Except.error VError.alreadyVoted) ∧
    (s.votingActive = true → (s.voters caller).hasVoted = false →
      (s.candidates cid).exists_ = false →
      vote s caller cid ts = Except.error VError.unknownCandidate) ∧
    (s.votingActive = true → (s.voters caller).hasVoted = false →
      (s.candidates cid).exists_ = true →
      ∃ s', vote s caller cid ts = Except.ok s') :=
  ⟨fun h => vote_inactive caller cid ts h,
   fun h1 h2 => vote_already caller cid ts h1 h2,
   fun h1 h2 h3 => vote_unknown caller cid ts h1 h2 h3,
   fun h1 h2 h3 => ⟨_, vote_ok caller cid ts h1 h2 h3⟩⟩

/-- Witness for C4: each of the four guard outcomes at a concrete state —
inactive phase (even though candidate 1 exists), repeat voter (even though
candidate 1 exists), unknown candidate 99, and a fully passing call. -/
theorem vote_check_order_witness :
    vote sCand 1 1 5 = Except.error VError.votingInactive ∧
    vote sVoted 1 99 6 = Except.error VError.alreadyVoted ∧
    vote sActive 2 99 7 = Except.error VError.unknownCandidate ∧
    (∃ s', vote sActive 2 1 8 = Except.ok s') :=
  ⟨(vote_check_order sCand 1 1 5).1 (by rfl),
   (vote_check_order sVoted 1 99 6).2.1 (by rfl) (by rfl),
   (vote_check_order sActive 2 99 7).2.2.1 (by rfl) (by rfl) (by rfl),
   (vote_check_order sActive 2 1 8).2.2.2 (by rfl) (by rfl) (by rfl)⟩

/-- C1 as frozen is refuted at a concrete run: identity 1 votes successfully
for candidate 1, the owner then toggles the phase off, and identity 1's next
vote call reverts with `votingInactive` — not `alreadyVoted` — because the
phase guard runs before the duplicate guard. -/
theorem one_vote_counterexample :
    (vote sActive 1 1 10).isOk = true ∧
    vote (applyOp sVoted (Op.toggleVoting 0)) 1 1 11 =
      Except.error VError.votingInactive ∧
    VError.votingInactive ≠ VError.alreadyVoted :=
  ⟨by rfl, by rfl, by decide⟩

/-- C1 (amended): once `vote(caller, c)` has succeeded at time `t`, every
later `vote` call by the same identity fails — with `alreadyVoted` when the
phase is Active at that moment and with `votingInactive` when it is not — the
identity's stored record keeps the originally written
`(hasVoted, votedFor, timestamp) = (true, c, t)` through any sequence of
transactions, and the failed call leaves the whole state unchanged. -/
theorem one_vote_per_identity (s s1 : VSState) (caller c t : Nat)
    (ops : List Op) (c' t' : Nat)
    (h : vote s caller c t = Except.ok s1) :
    (run s1 ops).voters caller = ⟨true, c, t⟩ ∧
    vote (run s1 ops) caller c' t' =
      Except.error (if (run s1 ops).votingActive then VError.alreadyVoted
        else VError.votingInactive) ∧
    applyOp (run s1 ops) (Op.vote caller c' t') = run s1 ops := by
  obtain ⟨hact, hfresh, hex, hs1⟩ := vote_ok_eq h
  have hv1 : s1.voters caller = ⟨true, c, t⟩ := by
    rw [hs1]; simp
  have hrec1 : (run s1 ops).voters caller = ⟨true, c, t⟩ := by
    rw [run_voters_voted ops s1 (by rw [hv1])]
    exact hv1
  have herr : vote (run s1 ops) caller c' t' =
      Except.error (if (run s1 ops).votingActive then VError.alreadyVoted
        else VError.votingInactive) := by
    cases hA : (run s1 ops).votingActive with
    | false => simpa using vote_inactive caller c' t' hA
    | true => simpa using vote_already caller c' t' hA (by rw [hrec1])
  refine ⟨hrec1, herr, ?_⟩
  rw [applyOp_vote, herr]

/-- Witness for C1 (amended): the concrete run of the counterexample — after
identity 1's successful vote and a phase toggle, the record is intact, the
next vote reverts with the phase-dependent error, and the state is
unchanged. -/
theorem one_vote_per_identity_witness :
    (run sVoted [Op.toggleVoting 0]).voters 1 = ⟨true, 1, 10⟩ ∧
    vote (run sVoted [Op.toggleVoting 0]) 1 1 11 =
      Except.error (if (run sVoted [Op.toggleVoting 0]).votingActive then
        VError.alreadyVoted else VError.votingInactive) ∧
    applyOp (run sVoted [Op.toggleVoting 0]) (Op.vote 1 1 11) =
      run sVoted [Op.toggleVoting 0] :=
  one_vote_per_identity sActive sVoted 1 1 10 [Op.toggleVoting 0] 1 11 (by rfl)

/-- C5 as frozen is refuted at a concrete call: the admin adds a candidate
with empty name and empty description and the call succeeds — the code has
no `InvalidInput` validation — creating candidate 1 and bumping
`candidateCount` to 1. -/
theorem empty_candidate_counterexample :
    (addCandidate (initState 0) 0 "" "").isOk = true ∧
    (addCandidate (initState 0) 0 "" "").toOption.map
      VSState.candidateCount = some 1 ∧
    (addCandidate (initState 0) 0 "" "").toOption.map
      (fun s => (s.candidates 1).exists_) = some true :=
  ⟨by rfl, by rfl, by rfl⟩

/-- C5 (amended): `addCandidate` performs no validation of its text fields:
called by the admin with empty name and description it succeeds, allocating
the next sequential id and storing the candidate with the empty strings and
`voteCount = 0`. -/
theorem empty_candidate_succeeds (s : VSState) :
    ∃ s', addCandidate s s.owner "" "" = Except.ok s' ∧
      s'.candidateCount = s.candidateCount + 1 ∧
      s'.candidates (s.candidateCount + 1) =
        ⟨s.candidateCount + 1, "", "", 0, true⟩ := by
  refine ⟨{ s with
    candidateCount := s.candidateCount + 1
    candidates := fun i =>
      if i = s.candidateCount + 1 then
        ⟨s.candidateCount + 1, "", "", 0, true⟩
      else s.candidates i }, ?_, rfl, by simp⟩
  unfold addCandidate
  rw [if_neg (not_not_intro rfl)]

/-- C6: an `addCandidate` or `toggleVoting` call by any identity other than
the owner reverts with `unauthorized` and the entire state — candidates,
counters, voter records and the phase flag — is exactly as before. -/
theorem unauthorized_no_mutation (s : VSState) (c : Nat) (nm de : String)
    (h : c ≠ s.owner) :
    addCandidate s c nm de = Except.error VError.unauthorized ∧
    toggleVoting s c = Except.error VError.unauthorized ∧
    applyOp s (Op.addCandidate c nm de) = s ∧
    applyOp s (Op.toggleVoting c) = s := by
  have h1 := addCandidate_error nm de h
  have h2 := toggleVoting_error h
  refine ⟨h1, h2, ?_, ?_⟩
  · rw [applyOp_add, h1]
  · rw [applyOp_toggle, h2]

/-- Witness for C6: identity 1 (not the owner 0) fails both administrative
calls on the freshly deployed state, which is left unchanged. -/
theorem unauthorized_no_mutation_witness :
    addCandidate (initState 0) 1 "Eve" "x" =
      Except.error VError.unauthorized ∧
    toggleVoting (initState 0) 1 = Except.error VError.unauthorized ∧
    applyOp (initState 0) (Op.addCandidate 1 "Eve" "x") = initState 0 ∧
    applyOp (initState 0) (Op.toggleVoting 1) = initState 0 :=
  unauthorized_no_mutation (initState 0) 1 "Eve" "x" (by decide)

/-- C7: `getResults` returns one entry per candidate, the (1-based) i-th
entry being candidate i's stored `voteCount`, in ascending id order; on the
Scenario C run — three candidates, activation, and five distinct voters
choosing candidates 1, 1, 2, 3, 1 — it returns `[3, 1, 1]`. -/
theorem results_aligned (s : VSState) (i : Nat) (hi : i < s.candidateCount) :
    (getResults s).length = s.candidateCount ∧
    (getResults s)[i]? = some ((s.candidates (i + 1)).voteCount) ∧
    getResults (run (initState 0) electionOps) = [3, 1, 1] := by
  refine ⟨by simp [getResults], ?_, by rfl⟩
  simp [getResults, hi]

/-- Witness for C7 at the Scenario C state and index 0: three entries, the
first being candidate 1's count of 3. -/
theorem results_aligned_witness :
    (getResults (run (initState 0) electionOps)).length =
      (run (initState 0) electionOps).candidateCount ∧
    (getResults (run (initState 0) electionOps))[0]? =
      some (((run (initState 0) electionOps).candidates (0 + 1)).voteCount) ∧
    getResults (run (initState 0) electionOps) = [3, 1, 1] :=
  results_aligned (run (initState 0) electionOps) 0 (by decide)

/-- C8: the read operations are `view` functions, embedded as pure functions
of the state (so they mutate nothing); none of them can fail except
`getCandidate`, which reverts exactly when the requested id holds no
existing candidate — in particular `hasVoted` returns `false`, rather than
failing, for an identity whose record is still the zero record. -/
theorem reads_never_mutate (s : VSState) (cid a : Nat) :
    ((s.candidates cid).exists_ = false →
      getCandidate s cid = Except.error VError.unknownCandidate) ∧
    ((s.candidates cid).exists_ = true →
      getCandidate s cid = Except.ok
        ((s.candidates cid).name, (s.candidates cid).description,
         (s.candidates cid).voteCount)) ∧
    hasVoted s a = (s.voters a).hasVoted ∧
    (s.voters a = zeroVoter → hasVoted s a = false) ∧
    (getAllCandidates s).length = s.candidateCount ∧
    getPhase s = s.votingActive :=
  ⟨fun h => by simp [getCandidate, h],
   fun h => by simp [getCandidate, h],
   rfl,
   fun h => by simp [hasVoted, h, zeroVoter],
   by simp [getAllCandidates],
   rfl⟩

/-- Witness for C8 on the one-candidate active state: an unknown id reverts,
the known id is returned, and identity 2 (no record) reads as not having
voted. -/
theorem reads_never_mutate_witness :
    getCandidate sActive 99 = Except.error VError.unknownCandidate ∧
    getCandidate sActive 1 = Except.ok
      ((sActive.candidates 1).name, (sActive.candidates 1).description,
       (sActive.candidates 1).voteCount) ∧
    hasVoted sActive 2 = false :=
  ⟨(reads_never_mutate sActive 99 2).1 (by rfl),
   (reads_never_mutate sActive 1 2).2.1 (by rfl),
   (reads_never_mutate sActive 1 2).2.2.2.1 (by rfl)⟩

/-- C9: EVM transactions serialize, so N ≥ 1 "concurrent" vote calls by one
fresh identity while the phase is Active, each targeting an existing
candidate, are any serialized batch: exactly the first succeeds, the other
N − 1 revert with `alreadyVoted`, and `totalVotes` grows by exactly 1 — so
two simultaneous votes from one identity never both succeed. -/
theorem concurrent_votes_once (s : VSState) (caller : Nat)
    (calls : List (Nat × Nat))
    (hact : s.votingActive = true)
    (hfresh : (s.voters caller).hasVoted = false)
    (hex : ∀ p ∈ calls, (s.candidates p.1).exists_ = true)
    (hne : calls ≠ []) :
    (runVotes caller s calls).2.count none = 1 ∧
    (runVotes caller s calls).2.count (some VError.alreadyVoted) =
      calls.length - 1 ∧
    (runVotes caller s calls).2.length = calls.length ∧
    (runVotes caller s calls).1.totalVotes = s.totalVotes + 1 := by
  cases calls with
  | nil => exact absurd rfl hne
  | cons p rest =>
    obtain ⟨cid, ts⟩ := p
    have hex1 : (s.candidates cid).exists_ = true := hex (cid, ts) (by simp)
    obtain ⟨s', hvote⟩ : ∃ s', vote s caller cid ts = Except.ok s' :=
      ⟨_, vote_ok caller cid ts hact hfresh hex1⟩
    obtain ⟨-, -, -, hs'⟩ := vote_ok_eq hvote
    have hact2 : s'.votingActive = true := by rw [hs']; exact hact
    have hv2 : (s'.voters caller).hasVoted = true := by rw [hs']; simp
    have htv : s'.totalVotes = s.totalVotes + 1 := by rw [hs']
    rw [runVotes_cons_ok hvote, runVotes_already caller rest s' hact2 hv2]
    refine ⟨?_, ?_, ?_, htv⟩
    · simp [List.count_cons, List.count_replicate]
    · simp [List.count_cons, List.count_replicate]
    · simp

/-- Witness for C9: identity 2 fires a batch of three vote calls at the
one-candidate active state; one succeeds, two revert with `alreadyVoted`,
and `totalVotes` rises by exactly 1. -/
theorem concurrent_votes_once_witness :
    (runVotes 2 sActive [(1, 20), (1, 21), (1, 22)]).2.count none = 1 ∧
    (runVotes 2 sActive [(1, 20), (1, 21), (1, 22)]).2.count
      (some VError.alreadyVoted) = ([(1, 20), (1, 21), (1, 22)] :
        List (Nat × Nat)).length - 1 ∧
    (runVotes 2 sActive [(1, 20), (1, 21), (1, 22)]).2.length =
      ([(1, 20), (1, 21), (1, 22)] : List (Nat × Nat)).length ∧
    (runVotes 2 sActive [(1, 20), (1, 21), (1, 22)]).1.totalVotes =
      sActive.totalVotes + 1 :=
  concurrent_votes_once sActive 2 [(1, 20), (1, 21), (1, 22)]
    (by rfl) (by rfl) (by decide) (by decide)

/-- C10: a successful `vote(caller, cid)` at time `ts` changes exactly the
three things the source writes: candidate `cid` keeps its id, name and
description and gains one vote; every other key of the candidate mapping is
untouched; `totalVotes` rises by 1; the caller's record becomes
`(true, cid, ts)`; every other identity's record, `candidateCount`, the
phase flag and the owner are unchanged. -/
theorem vote_frame (s : VSState) (caller cid ts : Nat) (s' : VSState)
    (h : vote s caller cid ts = Except.ok s') :
    s'.candidates cid =
      { s.candidates cid with
          voteCount := (s.candidates cid).voteCount + 1 } ∧
    (∀ j, j ≠ cid → s'.candidates j = s.candidates j) ∧
    s'.totalVotes = s.totalVotes + 1 ∧
    s'.voters caller = ⟨true, cid, ts⟩ ∧
    (∀ a, a ≠ caller → s'.voters a = s.voters a) ∧
    s'.candidateCount = s.candidateCount ∧
    s'.votingActive = s.votingActive ∧
    s'.owner = s.owner := by
  obtain ⟨-, -, -, rfl⟩ := vote_ok_eq h
  exact ⟨by simp, fun j hj => by simp [hj], rfl, by simp,
    fun a ha => by simp [ha], rfl, rfl, rfl⟩

/-- Witness for C10: identity 1's vote for candidate 1 at time 10 on the
active state — candidate 1 gains one vote, the total rises by one, and
identity 2's record and the phase are untouched. -/
theorem vote_frame_witness :
    sVoted.candidates 1 =
      { sActive.candidates 1 with
          voteCount := (sActive.candidates 1).voteCount + 1 } ∧
    sVoted.totalVotes = sActive.totalVotes + 1 ∧
    sVoted.voters 1 = ⟨true, 1, 10⟩ ∧
    sVoted.voters 2 = sActive.voters 2 ∧
    sVoted.votingActive = sActive.votingActive :=
  ⟨(vote_frame sActive 1 1 10 sVoted (by rfl)).1,
   (vote_frame sActive 1 1 10 sVoted (by rfl)).2.2.1,
   (vote_frame sActive 1 1 10 sVoted (by rfl)).2.2.2.1,
   (vote_frame sActive 1 1 10 sVoted (by rfl)).2.2.2.2.1 2 (by decide),
   (vote_frame sActive 1 1 10 sVoted (by rfl)).2.2.2.2.2.2.1⟩
